import Mathlib

/-!
Shallow embedding of the audible-downloader reconciliation pipeline
(`src/app` of the repository) and proofs about its specification claims.

Python strings are modelled as Lean `String`; the Python slicing and
searching primitives used by the source are re-implemented over the
underlying character lists so that every definition is executable and
kernel-reducible.  The SQLite `audiobooks` table is modelled as a list of
rows in insertion order; each SQL statement of `database.py` becomes a
pure function on that list.
-/

namespace AudibleDL

/-! ## Python string primitives -/

/-- Python `s[:-n]`: drop the last `n` characters (empty result when `n`
exceeds the length, as in Python). -/
def pyDropRight (s : String) (n : Nat) : String :=
  ⟨s.data.take (s.data.length - n)⟩

/-- Python `s.endswith(t)`. -/
def pyEndsWith (s t : String) : Bool :=
  decide (t.data <:+ s.data)

/-- Python `s.startswith(t)`. -/
def pyStartsWith (s t : String) : Bool :=
  decide (t.data <+: s.data)

/-- Python `t in s` (substring containment). -/
def pyContains (s t : String) : Bool :=
  decide (t.data <:+: s.data)

/-- Python `s.split(sep)[0]` for a one-character separator: the token
before the first occurrence of the separator (the whole string when the
separator does not occur). -/
def pySplitFirst (s : String) (sep : Char) : String :=
  ⟨s.data.takeWhile (fun c => c ≠ sep)⟩

/-- Executable lexicographic comparison of character lists (the order
SQLite uses for `ORDER BY asin` on ASCII keys). -/
def lexLe : List Char → List Char → Bool
  | [], _ => true
  | _ :: _, [] => false
  | a :: as, b :: bs => if a = b then lexLe as bs else decide (a < b)

/-! ## Data model: the audiobooks table (`database.py`) -/

/-- One row of the `audiobooks` table. -/
structure Book where
  asin : String
  title : String
  subtitle : String
  authors : String
  series_title : String
  narrators : String
  series_sequence : Option Int
  release_date : String
  downloaded : Nat
  is_downloadable : Nat
  restriction_reason : Option String
  last_download_attempt : Option String
deriving Repr, DecidableEq

/-- The column subset of a remote listing item that `add_book` reads from
its `book_data` dict. -/
structure BookData where
  asin : String
  title : String
  subtitle : String
  authors : String
  series_title : String
  narrators : String
  series_sequence : Option Int
  release_date : String
deriving Repr, DecidableEq

/-- The row `add_book` inserts for a listing item: `downloaded = 0`,
`is_downloadable = 1`, no restriction reason, no attempt timestamp. -/
def newRow (b : BookData) : Book :=
  { asin := b.asin, title := b.title, subtitle := b.subtitle,
    authors := b.authors, series_title := b.series_title,
    narrators := b.narrators, series_sequence := b.series_sequence,
    release_date := b.release_date, downloaded := 0, is_downloadable := 1,
    restriction_reason := none, last_download_attempt := none }

/-- Whether some row of the table already carries this asin
(the `SELECT * FROM audiobooks WHERE asin=?` probe of `add_book`). -/
def hasAsin (db : List Book) (asin : String) : Bool :=
  db.any (fun r => r.asin = asin)

/-- `AudiobookDatabase.add_book`: insert only when the asin is absent;
returns the updated table and whether a row was inserted. -/
def add_book (db : List Book) (b : BookData) : List Book × Bool :=
  if hasAsin db b.asin then (db, false) else (db ++ [newRow b], true)

/-- Insertion step of the executable sort standing for `ORDER BY asin`. -/
def insertByAsin (r : Book) : List Book → List Book
  | [] => [r]
  | x :: xs => if lexLe r.asin.data x.asin.data then r :: x :: xs
               else x :: insertByAsin r xs

/-- Executable insertion sort by asin (`ORDER BY asin`). -/
def sortByAsin (l : List Book) : List Book :=
  l.foldr insertByAsin []

/-- Filter of `get_unchecked_books`: `is_downloadable = 1 AND
restriction_reason IS NULL AND downloaded = 0`. -/
def uncheckedPred (r : Book) : Bool :=
  r.is_downloadable = 1 && r.restriction_reason = none && r.downloaded = 0

/-- `AudiobookDatabase.get_unchecked_books`: the pending-classification
query, returning `(asin, title)` pairs ordered by asin. -/
def get_unchecked_books (db : List Book) : List (String × String) :=
  (sortByAsin (db.filter uncheckedPred)).map (fun r => (r.asin, r.title))

/-- `AudiobookDatabase.get_downloadable_books`:
`downloaded = 0 AND is_downloadable = 1`. -/
def get_downloadable_books (db : List Book) : List (String × String × Option String) :=
  (db.filter (fun r => r.downloaded = 0 && r.is_downloadable = 1)).map
    (fun r => (r.asin, r.title, r.restriction_reason))

/-- `AudiobookDatabase.get_restricted_books`:
`downloaded = 0 AND is_downloadable = 0`. -/
def get_restricted_books (db : List Book) : List (String × String × Option String) :=
  (db.filter (fun r => r.downloaded = 0 && r.is_downloadable = 0)).map
    (fun r => (r.asin, r.title, r.restriction_reason))

/-- `AudiobookDatabase.update_downloadability`: `UPDATE audiobooks SET
is_downloadable = ?, restriction_reason = ? WHERE asin = ?`. -/
def update_downloadability (db : List Book) (asin : String) (isd : Bool)
    (reason : Option String) : List Book :=
  db.map (fun r => if r.asin = asin then
    { r with is_downloadable := if isd then 1 else 0,
             restriction_reason := reason } else r)

/-- `AudiobookDatabase.update_download_attempt`: `UPDATE audiobooks SET
last_download_attempt = ? WHERE asin = ?`. -/
def update_download_attempt (db : List Book) (asin : String)
    (timestamp : String) : List Book :=
  db.map (fun r => if r.asin = asin then
    { r with last_download_attempt := some timestamp } else r)

/-- `AudiobookDatabase.mark_downloaded`: `UPDATE audiobooks SET
downloaded = 1 WHERE asin = ?`. -/
def mark_downloaded (db : List Book) (asin : String) : List Book :=
  db.map (fun r => if r.asin = asin then { r with downloaded := 1 } else r)

/-- `AudiobookDatabase.get_book_info`: `SELECT title FROM audiobooks WHERE
asin=?`, `None` when the asin is unknown. -/
def get_book_info (db : List Book) (asin : String) : Option String :=
  (db.find? (fun r => r.asin = asin)).map (fun r => r.title)

/-! ## CatalogSyncer (`library_manager.py`) -/

/-- `LibraryManager.update_library` over an already-fetched remote
listing: fold `add_book` over the items, counting actual insertions. -/
def update_library (db : List Book) (listing : List BookData) : List Book × Nat :=
  listing.foldl
    (fun st bd =>
      let res := add_book st.1 bd
      (res.1, if res.2 then st.2 + 1 else st.2))
    (db, 0)

/-! ## RestrictionClassifier (`restriction_checker.py`, `config.py`) -/

/-- `config.API_BATCH_SIZE`. -/
def API_BATCH_SIZE : Nat := 20

/-- The fields of an Audible API item that the restriction analysis
reads. -/
structure ApiItem where
  asin : String
  title : String
  is_ayce : Bool
  benefit_id : Option String
  is_purchasability_suppressed : Bool
deriving Repr, DecidableEq

/-- The remote detail endpoint as seen by the classifier.
`get_book_details` returns `none` for a failed call (non-zero exit,
empty stdout, or exception) and `some items` for a parsed response;
`get_single_book_details` returns the first item of the response or
`none` when the call failed or returned no items. -/
structure ApiOracle where
  get_book_details : List String → Option (List ApiItem)
  get_single_book_details : String → Option ApiItem

/-- `RestrictionChecker._analyze_book_restrictions`. -/
def analyze_book_restrictions (item : ApiItem) : Bool × Option String :=
  if item.is_ayce || item.benefit_id = some "AYCL" then
    (false, some "Audible Plus catalog book (streaming only)")
  else if item.is_purchasability_suppressed then
    (false, some "Purchase suppressed by publisher")
  else
    (true, none)

/-- `RestrictionChecker._update_book_status` (the database effect). -/
def update_book_status (db : List Book) (asin : String) (isd : Bool)
    (reason : Option String) : List Book :=
  update_downloadability db asin isd reason

/-- `RestrictionChecker._process_batch_response`: apply the restriction
analysis to every item of a successful batch response. -/
def process_batch_response (db : List Book) (items : List ApiItem) : List Book :=
  items.foldl
    (fun db item =>
      let res := analyze_book_restrictions item
      update_book_status db item.asin res.1 res.2)
    db

/-- `RestrictionChecker._process_individual_books`: per-asin degradation
path when the bulk call failed. -/
def process_individual_books (oracle : ApiOracle) (db : List Book)
    (batch : List (String × String)) : List Book :=
  batch.foldl
    (fun db p =>
      match oracle.get_single_book_details p.1 with
      | some item =>
          let res := analyze_book_restrictions item
          update_book_status db p.1 res.1 res.2
      | none =>
          update_downloadability db p.1 false
            (some "No API data available (may be invalid ASIN)"))
    db

/-- Success condition of the bulk call in `_process_batch`: Python
`if api_data and api_data.get('items')` — a response was parsed and its
item list is non-empty. -/
def batchSucceeds (oracle : ApiOracle) (asins : List String) : Bool :=
  match oracle.get_book_details asins with
  | some items => !items.isEmpty
  | none => false

/-- `RestrictionChecker._process_batch`, instrumented with call counts:
the state is `(table, batch calls so far, individual calls so far)`.
One bulk call is always issued; on its failure one individual detail
call is issued per entry of the batch. -/
def process_batch_t (oracle : ApiOracle)
    (st : List Book × Nat × Nat) (batch : List (String × String)) :
    List Book × Nat × Nat :=
  match oracle.get_book_details (batch.map Prod.fst) with
  | some items =>
      if items.isEmpty then
        (process_individual_books oracle st.1 batch,
         st.2.1 + 1, st.2.2 + batch.length)
      else
        (process_batch_response st.1 items, st.2.1 + 1, st.2.2)
  | none =>
      (process_individual_books oracle st.1 batch,
       st.2.1 + 1, st.2.2 + batch.length)

/-- Fuelled worker for `chunks`: peel `take n` slices off the list while
fuel remains. -/
def chunksAux : Nat → Nat → List α → List (List α)
  | 0, _, _ => []
  | _, _, [] => []
  | fuel + 1, n, x :: xs => (x :: xs).take n :: chunksAux fuel n ((x :: xs).drop n)

/-- Python `range(0, len(l), n)` slicing used by
`check_all_restrictions`: split a list into consecutive chunks of `n`
(the last chunk may be shorter). Implemented with a fuel argument —
`l.length` steps always suffice for a positive stride — so that the
definition is structurally recursive. -/
def chunks (n : Nat) (l : List α) : List (List α) :=
  if n = 0 then [] else chunksAux l.length n l

/-- `RestrictionChecker.check_all_restrictions`, instrumented: process
the pending-classification list in batches of `API_BATCH_SIZE`,
returning the final table together with the number of bulk detail calls
and the number of individual detail calls issued. -/
def check_all_restrictions_t (oracle : ApiOracle) (db : List Book) :
    List Book × Nat × Nat :=
  (chunks API_BATCH_SIZE (get_unchecked_books db)).foldl
    (process_batch_t oracle) (db, 0, 0)

/-- `RestrictionChecker.check_all_restrictions` (table effect only). -/
def check_all_restrictions (oracle : ApiOracle) (db : List Book) : List Book :=
  (check_all_restrictions_t oracle db).1

/-! ## AcquisitionOrchestrator (`downloader.py`, `audible_api.py`) -/

/-- Environment of one download attempt: whether the `audible download`
invocation exited 0, and the captured stdout of the secondary probe
(`none` when the probe raised, e.g. timed out). -/
structure DownloadEnv where
  success : Bool
  probeOutput : Option String
deriving Repr, DecidableEq

/-- `AudibleAPI.check_download_error`: re-run the download with captured
output; report the fixed reason string when the output contains the
provider marker `is not downloadable`, and `nothing` otherwise (also on
any exception). -/
def check_download_error (probeOutput : Option String) : Option String :=
  match probeOutput with
  | none => none
  | some out =>
      if pyContains out "is not downloadable" then
        some "Detected as non-downloadable during download attempt"
      else
        none

/-- `AudiobookDownloader._download_single_book`: stamp the attempt
timestamp, invoke the download, and on failure demote the entry when the
probe detects the restriction marker. Returns the table and the success
flag. -/
def download_single_book (env : DownloadEnv) (timestamp : String)
    (asin : String) (db : List Book) : List Book × Bool :=
  let db1 := update_download_attempt db asin timestamp
  if env.success then
    (db1, true)
  else
    match check_download_error env.probeOutput with
    | some reason => (update_downloadability db1 asin false (some reason), false)
    | none => (db1, false)

/-! ## AssetProcessor (`file_processor.py`, `config.py`) -/

/-- `config.AUDIOBOOK_DIR`. -/
def AUDIOBOOK_DIR : String := "/audiobooks"

/-- `config.AUDIOBOOK_DOWNLOAD_DIR`. -/
def AUDIOBOOK_DOWNLOAD_DIR : String := "/app"

/-- State touched by `FileProcessor`: the table, the staging directory
listing (file names), and the placed final assets as
`(directory, file name)` pairs. -/
structure ProcState where
  db : List Book
  staging : List String
  assets : List (String × String)
deriving Repr, DecidableEq

/-- Environment of the processor: folder mode (`AUDIOBOOK_FOLDERS`) and
the outcome of an ffmpeg invocation on a given source file name and
destination. -/
structure ConvEnv where
  useFolders : Bool
  ffmpegOk : String → String × String → Bool

/-- ASIN derivation of `_process_single_file`:
`audiobook_file.split("_")[0]`. -/
def extractAsin (file : String) : String :=
  pySplitFirst file '_'

/-- `FileProcessor._find_original_asin`: the source is a placeholder that
always returns `None`. -/
def find_original_asin (_file : String) : Option String :=
  none

/-- Base-name derivation of `_convert_and_organize`: Python
`audiobook_file[:-4] if not is_aax else audiobook_file[:-3]` with
`is_aax = audiobook_file.endswith('.aax')`. -/
def baseNameOf (file : String) : String :=
  if pyEndsWith file ".aax" then pyDropRight file 3 else pyDropRight file 4

/-- `FileProcessor._create_audiobook_folder`: look the asin up and, when
known, create and return the per-book directory — which the source
derives from the asin alone (`os.path.join(AUDIOBOOK_DIR, asin)`), not
from the book metadata. -/
def create_audiobook_folder (db : List Book) (asin : String) : Option String :=
  match get_book_info db asin with
  | none => none
  | some _ => some (AUDIOBOOK_DIR ++ "/" ++ asin)

/-- `FileProcessor._convert_and_organize`: derive the destination, delete
a pre-existing destination asset, and run the conversion; on success the
raw source leaves the staging area and the asset is placed. -/
def convert_and_organize (env : ConvEnv) (s : ProcState)
    (file asin : String) : ProcState :=
  let baseName := baseNameOf file
  let destOpt : Option (String × String) :=
    if env.useFolders then
      match create_audiobook_folder s.db asin with
      | none => none
      | some folder => some (folder, baseName ++ ".m4b")
    else
      some (AUDIOBOOK_DIR, baseName ++ ".m4b")
  match destOpt with
  | none => s
  | some dest =>
      let s1 := { s with assets := s.assets.filter (fun a => a ≠ dest) }
      if env.ffmpegOk file dest then
        { s1 with staging := s1.staging.erase file,
                  assets := s1.assets ++ [dest] }
      else
        s1

/-- `FileProcessor._process_single_file`: derive the asin, validate it
against the table (with the dead rename fallback of `_validate_asin`,
unreachable because `_find_original_asin` always returns `None`), then
mark the entry downloaded and convert. The second component is the
warning emitted when the file is skipped. -/
def process_single_file (env : ConvEnv) (s : ProcState) (file : String) :
    ProcState × Option String :=
  let asin := extractAsin file
  match get_book_info s.db asin with
  | some _ =>
      (convert_and_organize env { s with db := mark_downloaded s.db asin }
        file asin, none)
  | none =>
      match find_original_asin file with
      | some orig =>
          if (get_book_info s.db orig).isSome then
            let renamed := file.replace asin orig
            (convert_and_organize env
              { s with db := mark_downloaded s.db asin,
                       staging := s.staging.map
                         (fun f => if f = file then renamed else f) }
              file asin, none)
          else
            (s, some ("Warning: Cannot find ASIN " ++ asin ++
              " in database. Skipping file " ++ file))
      | none =>
          (s, some ("Warning: Cannot find ASIN " ++ asin ++
            " in database. Skipping file " ++ file))

/-! ## Expected-path derivation (`verify_integrity.py`) -/

/-- Python `s.strip()` (for the ASCII whitespace relevant here). -/
def pyStrip (s : String) : String :=
  ⟨((s.data.dropWhile Char.isWhitespace).reverse.dropWhile
      Char.isWhitespace).reverse⟩

/-- The characters `sanitize_name` replaces with a dash. -/
def INVALID_PATH_CHARS : String := "<>:\"/\\|?*"

/-- `sanitize_name` inside `create_audiobook_path`: `None` becomes the
empty string, each filesystem-unsafe character becomes a dash, and the
result is stripped. The per-character sequential `replace` of the source
is a single map because the dash itself is never replaced. -/
def sanitize_name (name : Option String) : String :=
  match name with
  | none => ""
  | some n =>
      pyStrip ⟨n.data.map
        (fun c => if INVALID_PATH_CHARS.data.contains c then '-' else c)⟩

/-- Python `s or default` for strings: the default when `s` is empty. -/
def orDefault (s d : String) : String :=
  if s = "" then d else s

/-- Python truthiness of the `series_sequence` column (`None` and `0` are
falsy). -/
def seqTruthy : Option Int → Bool
  | none => false
  | some k => k ≠ 0

/-- Python `str(series_sequence)` in the branch where it is an integer. -/
def pyStr : Option Int → String
  | some v => toString v
  | none => "None"

/-- The year expression of `create_audiobook_path`:
`release_date.split("-")[0] if release_date and "-" in release_date else
release_date or "Unknown"`. -/
def pyYear (release_date : Option String) : String :=
  match release_date with
  | none => "Unknown"
  | some rd =>
      if rd ≠ "" && pyContains rd "-" then pySplitFirst rd '-'
      else if rd ≠ "" then rd else "Unknown"

/-- `verify_integrity.create_audiobook_path`: the expected destination
directory derived from database metadata — per-author, optional
series/sequence, year dash title, optional subtitle, narrators in curly
braces — when folder mode is on, else the flat audiobook directory. -/
def create_audiobook_path (useFolders : Bool)
    (authors title series_title subtitle narrators : Option String)
    (series_sequence : Option Int) (release_date : Option String) : String :=
  let authors := orDefault (sanitize_name authors) "Unknown Author"
  let title := orDefault (sanitize_name title) "Unknown Title"
  let series_title := sanitize_name series_title
  let subtitle := sanitize_name subtitle
  let narrators := orDefault (sanitize_name narrators) "Unknown Narrator"
  if useFolders then
    let dir := AUDIOBOOK_DIR ++ "/" ++ authors ++ "/"
    let dir := if series_title ≠ "" && seqTruthy series_sequence then
        dir ++ series_title ++ "/" ++ pyStr series_sequence ++ " - "
      else dir
    let dir := dir ++ pyYear release_date ++ " - " ++ title
    let dir := if subtitle ≠ "" then dir ++ " - " ++ subtitle else dir
    dir ++ " \x7b" ++ narrators ++ "\x7d/"
  else
    AUDIOBOOK_DIR ++ "/"

/-! ## IntegrityAuditor (`auto_integrity_check.py`) -/

/-- A file of the asset tree: its directory, base name, and byte size
(`none` when `os.path.getsize` raises, i.e. the file is inaccessible). -/
structure FsFile where
  dir : String
  name : String
  size : Option Nat
deriving Repr, DecidableEq

/-- Final/raw container extensions recognised by both audit tools. -/
def assetExt (name : String) : Bool :=
  pyEndsWith name ".m4b" || pyEndsWith name ".aax" || pyEndsWith name ".aaxc"

/-- File-match test of `verify_and_fix`:
`file.startswith(asin) and file.endswith(('.m4b', '.aax', '.aaxc'))`. -/
def autoMatches (asin : String) (f : FsFile) : Bool :=
  pyStartsWith f.name asin && assetExt f.name

/-- The files of the tree matching a given asin in `verify_and_fix`. -/
def foundFiles (fs : List FsFile) (asin : String) : List FsFile :=
  fs.filter (autoMatches asin)

/-- Corruption heuristic of `verify_and_fix`: size below 1 MiB, or the
size probe raised. -/
def isCorrupt (f : FsFile) : Bool :=
  match f.size with
  | none => true
  | some n => decide (n < 1024 * 1024)

/-- Accumulator of the scan phase of `verify_and_fix`. -/
structure ScanResult where
  missing : List String
  corrupted : List (String × FsFile)
  issues : Nat
deriving Repr, DecidableEq

/-- Scan step of `verify_and_fix` for one downloaded book: no matching
file classifies it missing; otherwise every corrupt matching file is
recorded. Each classification increments `issues_found`. -/
def scanStep (fs : List FsFile) (acc : ScanResult) (r : Book) : ScanResult :=
  let found := foundFiles fs r.asin
  if found.isEmpty then
    { acc with missing := acc.missing ++ [r.asin], issues := acc.issues + 1 }
  else
    found.foldl
      (fun acc f =>
        if isCorrupt f then
          { acc with corrupted := acc.corrupted ++ [(r.asin, f)],
                     issues := acc.issues + 1 }
        else acc)
      acc

/-- Scan phase of `verify_and_fix`, over the rows of
`SELECT ... WHERE downloaded = 1`. -/
def scanBooks (fs : List FsFile) (books : List Book) : ScanResult :=
  (books.filter (fun r => r.downloaded = 1)).foldl (scanStep fs) ⟨[], [], 0⟩

/-- `UPDATE audiobooks SET downloaded = 0 WHERE asin = ?` of the fix
phase. -/
def resetDownloaded (db : List Book) (asin : String) : List Book :=
  db.map (fun r => if r.asin = asin then { r with downloaded := 0 } else r)

/-- Fix phase of `verify_and_fix`: when issues were found, reset the
missing asins, then delete each corrupted file and reset its asin. -/
def applyFixes (books : List Book) (fs : List FsFile) (sr : ScanResult) :
    List Book × List FsFile :=
  if 0 < sr.issues then
    let b1 := sr.missing.foldl resetDownloaded books
    let b2 := sr.corrupted.foldl (fun bs p => resetDownloaded bs p.1) b1
    let fs1 := sr.corrupted.foldl (fun fs p => fs.erase p.2) fs
    (b2, fs1)
  else
    (books, fs)

/-- `auto_integrity_check.verify_and_fix`: scan then fix, returning the
repaired table, the repaired tree, and `issues_found`. -/
def verify_and_fix (books : List Book) (fs : List FsFile) :
    List Book × List FsFile × Nat :=
  let sr := scanBooks fs books
  let res := applyFixes books fs sr
  (res.1, res.2, sr.issues)

/-- Process exit code of `auto_integrity_check.py` run standalone:
`sys.exit(verify_and_fix())`, where any exception inside the check makes
`verify_and_fix` return `-1`. -/
def auto_integrity_exit (fatal : Bool) (books : List Book)
    (fs : List FsFile) : Int :=
  if fatal then -1 else ((verify_and_fix books fs).2.2 : Int)

/-- Specification-level issue count: one issue per downloaded entry with
no matching file, plus one per corrupt matching file of the remaining
downloaded entries. -/
def specIssueCount (books : List Book) (fs : List FsFile) : Nat :=
  ((books.filter (fun r => r.downloaded = 1)).map
    (fun r =>
      if (foundFiles fs r.asin).isEmpty then 1
      else ((foundFiles fs r.asin).filter isCorrupt).length)).sum

/-! ## Standalone audit tool exit path (`verify_integrity.main`) -/

/-- Command-line flags of the standalone audit tool. -/
structure AuditArgs where
  verbose : Bool
  quick : Bool
  orphansOnly : Bool
  fix : Bool
  dryRun : Bool
deriving Repr, DecidableEq

/-- `verify_integrity.find_audiobook_files`: walk the given base path and
collect files with a known extension whose name contains the asin as a
substring. -/
def find_audiobook_files (fs : List FsFile) (base : String)
    (asin : String) : List FsFile :=
  fs.filter (fun f =>
    pyStartsWith f.dir base && assetExt f.name && pyContains f.name asin)

/-- Exit code and issue count of `verify_integrity.main`. A failed
database connection or query calls `sys.exit(1)`; the `orphans-only`
mode returns right after the orphan scan; otherwise the verification
loop fills the `issues` list (missing entries, and — outside quick mode
— files the external probe rejects) and `main` then returns normally, so
the process exits 0 whatever the count. The fix phase mutates table and
tree but never feeds back into the exit path, hence it does not appear
here. -/
def verify_integrity_main (args : AuditArgs) (useFolders : Bool)
    (dbOk : Bool) (probeValid : FsFile → Bool) (books : List Book)
    (fs : List FsFile) : Int × Nat :=
  if !dbOk then (1, 0)
  else if args.orphansOnly then (0, 0)
  else
    let issues := (books.filter (fun r => r.downloaded ≠ 0)).foldl
      (fun n r =>
        let expected := create_audiobook_path useFolders (some r.authors)
          (some r.title) (some r.series_title) (some r.subtitle)
          (some r.narrators) r.series_sequence (some r.release_date)
        let files := find_audiobook_files fs
          (if useFolders then expected else AUDIOBOOK_DIR) r.asin
        if files.isEmpty then n + 1
        else if !args.quick then
          n + (files.filter (fun f => !probeValid f)).length
        else n)
      0
    (0, issues)

/-! ## General helper lemmas -/

theorem map_id_of_eq_on {α : Type} {l : List α} {f : α → α}
    (h : ∀ x ∈ l, f x = x) : l.map f = l := by
  induction l with
  | nil => rfl
  | cons x xs ih =>
      simp only [List.map_cons, h x (by simp)]
      rw [ih (fun y hy => h y (by simp [hy]))]

/-- A sample catalog row shared by the concrete instantiations below. -/
def sampleBook : Book :=
  { asin := "B0SAMPLE01", title := "Sample", subtitle := "",
    authors := "A. Author", series_title := "", narrators := "",
    series_sequence := none, release_date := "2001-01-01",
    downloaded := 0, is_downloadable := 1, restriction_reason := none,
    last_download_attempt := none }

/-! ## C10: point mutations on an unknown asin are silent no-ops -/

/-- C10: for an asin not present in the table, `update_downloadability`,
`update_download_attempt` and `mark_downloaded` complete without error
and leave every row unchanged — the `UPDATE ... WHERE asin = ?` matches
zero rows and the caller gets no indication that the id was unknown
(none of the three returns a value). -/
theorem unknown_asin_updates_are_noops (db : List Book) (a : String)
    (isd : Bool) (reason : Option String) (ts : String)
    (h : hasAsin db a = false) :
    update_downloadability db a isd reason = db ∧
    update_download_attempt db a ts = db ∧
    mark_downloaded db a = db := by
  have hne : ∀ r ∈ db, ¬ r.asin = a := by
    simpa [hasAsin, List.any_eq_false] using h
  refine ⟨?_, ?_, ?_⟩ <;>
    · apply map_id_of_eq_on
      intro r hr
      simp [hne r hr]

theorem unknown_asin_updates_are_noops_witness :
    update_downloadability [sampleBook] "B0MISSING9" false none = [sampleBook] ∧
    update_download_attempt [sampleBook] "B0MISSING9" "2024-01-01T00:00:00" = [sampleBook] ∧
    mark_downloaded [sampleBook] "B0MISSING9" = [sampleBook] :=
  unknown_asin_updates_are_noops [sampleBook] "B0MISSING9" false none
    "2024-01-01T00:00:00" (by decide)

/-! ## C7: files with an unresolvable embedded id are left untouched -/

/-- C7: for a staged raw file whose derived id (the token before the
first underscore) is not in the table — and which therefore cannot be
resolved by `_find_original_asin`, a placeholder that always returns
`None` — `_process_single_file` leaves the whole state unchanged (the
file is neither deleted nor renamed, no table row is mutated, in
particular the entry is not marked downloaded) and only a warning is
reported. -/
theorem unresolved_file_left_untouched (env : ConvEnv) (s : ProcState)
    (file : String) (h : hasAsin s.db (extractAsin file) = false) :
    process_single_file env s file =
      (s, some ("Warning: Cannot find ASIN " ++ extractAsin file ++
        " in database. Skipping file " ++ file)) := by
  have hne : ∀ r ∈ s.db, ¬ r.asin = extractAsin file := by
    simpa [hasAsin, List.any_eq_false] using h
  have hfind : s.db.find? (fun r => r.asin = extractAsin file) = none := by
    rw [List.find?_eq_none]
    intro r hr
    simpa using hne r hr
  simp [process_single_file, get_book_info, hfind, find_original_asin]

theorem unresolved_file_left_untouched_witness :
    process_single_file ⟨true, fun _ _ => true⟩
      ⟨[sampleBook], ["B0UNKNOWN77_part1.aax"], []⟩ "B0UNKNOWN77_part1.aax" =
      (⟨[sampleBook], ["B0UNKNOWN77_part1.aax"], []⟩,
       some ("Warning: Cannot find ASIN " ++ extractAsin "B0UNKNOWN77_part1.aax" ++
         " in database. Skipping file " ++ "B0UNKNOWN77_part1.aax")) :=
  unresolved_file_left_untouched ⟨true, fun _ _ => true⟩
    ⟨[sampleBook], ["B0UNKNOWN77_part1.aax"], []⟩ "B0UNKNOWN77_part1.aax"
    (by decide)

/-! ## C9: the extension strip keeps the stem's trailing dot -/

theorem take_len_add {α : Type} (l t : List α) (k : Nat) :
    (l ++ t).take (l.length + k) = l ++ t.take k := by
  rw [List.take_append_eq_append_take]
  congr 1
  · exact List.take_of_length_le (by omega)
  · congr 1
    omega

theorem pyDropRight_append (s t : String) (n : Nat) (hn : n ≤ t.data.length) :
    pyDropRight (s ++ t) n = s ++ ⟨t.data.take (t.data.length - n)⟩ := by
  apply String.ext
  simp only [pyDropRight, String.data_append, List.length_append]
  have h1 : s.data.length + t.data.length - n
      = s.data.length + (t.data.length - n) := by omega
  rw [h1, take_len_add]

theorem pyEndsWith_append_self (s t : String) :
    pyEndsWith (s ++ t) t = true := by
  simp [pyEndsWith, String.data_append, List.suffix_append]

theorem aaxc_not_endsWith_aax (s : String) :
    pyEndsWith (s ++ ".aaxc") ".aax" = false := by
  simp only [pyEndsWith, String.data_append, decide_eq_false_iff_not]
  intro hsuf
  have hpre : (".aax".data).reverse <+: (s.data ++ ".aaxc".data).reverse :=
    List.reverse_prefix.mpr hsuf
  rw [List.reverse_append] at hpre
  have h1 : (".aax".data).reverse = ['x', 'a', 'a', '.'] := by decide
  have h2 : (".aaxc".data).reverse = ['c', 'x', 'a', 'a', '.'] := by decide
  rw [h1, h2] at hpre
  rw [List.cons_append, List.cons_prefix_cons] at hpre
  exact absurd hpre.1 (by decide)

/-- C9: for a staged raw file named `stem.aax` or `stem.aaxc`, the
destination file name the processor computes — `baseNameOf` of the raw
name followed by `.m4b`, as in `_convert_and_organize` — is `stem..m4b`:
the code strips only the 3 or 4 extension letters, keeping the stem's
trailing dot, then appends `.m4b`, so the placed basename carries a
double dot and never equals the conventional `stem.m4b`. -/
theorem raw_strip_gives_double_dot (stem : String) :
    baseNameOf (stem ++ ".aax") ++ ".m4b" = stem ++ "..m4b" ∧
    baseNameOf (stem ++ ".aaxc") ++ ".m4b" = stem ++ "..m4b" ∧
    stem ++ "..m4b" ≠ stem ++ ".m4b" := by
  refine ⟨?_, ?_, ?_⟩
  · rw [baseNameOf, pyEndsWith_append_self, if_pos rfl,
      pyDropRight_append _ _ _ (by decide)]
    have h1 : (⟨".aax".data.take (".aax".data.length - 3)⟩ : String) = "." := by decide
    rw [h1, String.append_assoc]
    congr 1
  · rw [baseNameOf, aaxc_not_endsWith_aax, if_neg (by simp),
      pyDropRight_append _ _ _ (by decide)]
    have h1 : (⟨".aaxc".data.take (".aaxc".data.length - 4)⟩ : String) = "." := by decide
    rw [h1, String.append_assoc]
    congr 1
  · intro h
    have h2 := congrArg (fun x => x.data.length) h
    simp [String.data_append] at h2

/-! ## C4: failed download attempts and the captured-output probe -/

/-- C4: when the download attempt for an entry fails, the captured-output
probe is consulted; if its output contains the `is not downloadable`
marker the entry is demoted to restricted with the fixed reason
`Detected as non-downloadable during download attempt`, and if no marker
is found (including a probe failure) the only change is the attempt
timestamp — the entry keeps its eligibility and acquired flag, so it is
retried next cycle. -/
theorem download_failure_probe_demotion (env : DownloadEnv) (ts a : String)
    (db : List Book) (hfail : env.success = false) :
    (download_single_book env ts a db).2 = false ∧
    (∀ out, env.probeOutput = some out →
      pyContains out "is not downloadable" = true →
      (download_single_book env ts a db).1 =
        db.map (fun r => if r.asin = a then
          { r with last_download_attempt := some ts, is_downloadable := 0,
                   restriction_reason :=
                     some "Detected as non-downloadable during download attempt" }
          else r)) ∧
    (check_download_error env.probeOutput = none →
      (download_single_book env ts a db).1 =
        db.map (fun r => if r.asin = a then
          { r with last_download_attempt := some ts } else r)) := by
  refine ⟨?_, ?_, ?_⟩
  · cases hcde : check_download_error env.probeOutput <;>
      simp [download_single_book, hfail, hcde]
  · intro out hout hmark
    simp only [download_single_book, hfail, Bool.false_eq_true, if_false,
      hout, check_download_error, hmark, if_pos,
      update_downloadability, update_download_attempt, List.map_map]
    apply List.map_congr_left
    intro r _
    by_cases hr : r.asin = a <;> simp [hr]
  · intro hnone
    simp [download_single_book, hfail, hnone, update_download_attempt]

theorem download_failure_probe_demotion_witness :
    (download_single_book ⟨false, some "B0SAMPLE01 is not downloadable"⟩
      "2024-01-01T00:00:00" "B0SAMPLE01" [sampleBook]).2 = false ∧
    (∀ out, (⟨false, some "B0SAMPLE01 is not downloadable"⟩ : DownloadEnv).probeOutput = some out →
      pyContains out "is not downloadable" = true →
      (download_single_book ⟨false, some "B0SAMPLE01 is not downloadable"⟩
        "2024-01-01T00:00:00" "B0SAMPLE01" [sampleBook]).1 =
        [sampleBook].map (fun r => if r.asin = "B0SAMPLE01" then
          { r with last_download_attempt := some "2024-01-01T00:00:00",
                   is_downloadable := 0,
                   restriction_reason :=
                     some "Detected as non-downloadable during download attempt" }
          else r)) ∧
    (check_download_error (⟨false, some "B0SAMPLE01 is not downloadable"⟩ : DownloadEnv).probeOutput = none →
      (download_single_book ⟨false, some "B0SAMPLE01 is not downloadable"⟩
        "2024-01-01T00:00:00" "B0SAMPLE01" [sampleBook]).1 =
        [sampleBook].map (fun r => if r.asin = "B0SAMPLE01" then
          { r with last_download_attempt := some "2024-01-01T00:00:00" } else r)) :=
  download_failure_probe_demotion ⟨false, some "B0SAMPLE01 is not downloadable"⟩
    "2024-01-01T00:00:00" "B0SAMPLE01" [sampleBook] rfl

/-! ## C6: upsert-if-absent is a no-op on repeat, sync is idempotent -/

/-- Table component of one `add_book` call. -/
def addBookFst (db : List Book) (bd : BookData) : List Book :=
  (add_book db bd).1

theorem update_library_fst (listing : List BookData) :
    ∀ (db : List Book) (n : Nat),
      (listing.foldl (fun st bd =>
        let res := add_book st.1 bd
        (res.1, if res.2 then st.2 + 1 else st.2)) (db, n)).1
      = listing.foldl addBookFst db := by
  induction listing with
  | nil => intro db n; rfl
  | cons bd rest ih =>
      intro db n
      simp only [List.foldl_cons]
      exact ih _ _

theorem hasAsin_append_single (db : List Book) (r : Book) (a : String) :
    hasAsin (db ++ [r]) a = (hasAsin db a || decide (r.asin = a)) := by
  simp [hasAsin, List.any_append]

theorem hasAsin_addBookFst_of (db : List Book) (b : BookData) (a : String)
    (h : hasAsin db a = true) : hasAsin (addBookFst db b) a = true := by
  unfold addBookFst add_book
  split <;> simp [hasAsin_append_single, h]

theorem hasAsin_addBookFst_self (db : List Book) (b : BookData) :
    hasAsin (addBookFst db b) b.asin = true := by
  unfold addBookFst add_book
  cases h : hasAsin db b.asin
  · simp [h, hasAsin_append_single, newRow]
  · simp [h]

theorem foldl_addBookFst_preserves (listing : List BookData) (a : String) :
    ∀ db : List Book, hasAsin db a = true →
      hasAsin (listing.foldl addBookFst db) a = true := by
  induction listing with
  | nil => intro db h; exact h
  | cons bd rest ih =>
      intro db h
      exact ih _ (hasAsin_addBookFst_of db bd a h)

theorem foldl_addBookFst_adds_all (listing : List BookData) :
    ∀ db : List Book, ∀ bd ∈ listing,
      hasAsin (listing.foldl addBookFst db) bd.asin = true := by
  induction listing with
  | nil => intro db bd h; cases h
  | cons b0 rest ih =>
      intro db bd hmem
      simp only [List.foldl_cons]
      rcases List.mem_cons.mp hmem with h | h
      · subst h
        exact foldl_addBookFst_preserves rest bd.asin _
          (hasAsin_addBookFst_self db bd)
      · exact ih _ bd h

theorem update_library_noop_of_all_present (listing : List BookData) :
    ∀ (db : List Book) (n : Nat),
      (∀ bd ∈ listing, hasAsin db bd.asin = true) →
      listing.foldl (fun st bd =>
        let res := add_book st.1 bd
        (res.1, if res.2 then st.2 + 1 else st.2)) (db, n) = (db, n) := by
  induction listing with
  | nil => intro db n _; rfl
  | cons bd rest ih =>
      intro db n h
      have hb : hasAsin db bd.asin = true := h bd (by simp)
      simp only [List.foldl_cons, add_book, hb, if_pos]
      exact ih db n (fun b2 h2 => h b2 (by simp [h2]))

theorem foldl_addBookFst_extends (listing : List BookData) :
    ∀ db : List Book, ∃ t, listing.foldl addBookFst db = db ++ t := by
  induction listing with
  | nil => intro db; exact ⟨[], by simp⟩
  | cons bd rest ih =>
      intro db
      simp only [List.foldl_cons]
      cases h : hasAsin db bd.asin
      · have h2 : addBookFst db bd = db ++ [newRow bd] := by
          simp [addBookFst, add_book, h]
        rw [h2]
        rcases ih (db ++ [newRow bd]) with ⟨t, ht⟩
        exact ⟨[newRow bd] ++ t, by simpa [List.append_assoc] using ht⟩
      · have h2 : addBookFst db bd = db := by
          simp [addBookFst, add_book, h]
        rw [h2]
        exact ih db

/-- C6: `add_book` called twice with the same asin inserts exactly once —
the second call returns `false` and leaves the table (hence its row
count) unchanged; consequently a second `update_library` run against an
unchanged listing inserts zero entries, and `update_library` never
mutates existing rows (the prior table is always a prefix of the new
one). -/
theorem add_book_noop_and_sync_idempotent :
    (∀ (db : List Book) (b : BookData), hasAsin db b.asin = false →
      add_book db b = (db ++ [newRow b], true) ∧
      add_book (db ++ [newRow b]) b = (db ++ [newRow b], false)) ∧
    (∀ (db : List Book) (listing : List BookData),
      (update_library (update_library db listing).1 listing).2 = 0) ∧
    (∀ (db : List Book) (listing : List BookData),
      ∃ t, (update_library db listing).1 = db ++ t) := by
  refine ⟨?_, ?_, ?_⟩
  · intro db b h
    constructor
    · simp [add_book, h]
    · simp [add_book, hasAsin_append_single, newRow, h]
  · intro db listing
    have hall : ∀ bd ∈ listing,
        hasAsin (update_library db listing).1 bd.asin = true := by
      intro bd hbd
      rw [update_library, update_library_fst]
      exact foldl_addBookFst_adds_all listing db bd hbd
    rw [update_library, update_library_noop_of_all_present listing _ 0 hall]
  · intro db listing
    rw [update_library, update_library_fst]
    exact foldl_addBookFst_extends listing db

theorem add_book_noop_and_sync_idempotent_witness :
    (add_book [] ⟨"B0SAMPLE01", "Sample", "", "A. Author", "", "", none, "2001-01-01"⟩ =
      ([] ++ [newRow ⟨"B0SAMPLE01", "Sample", "", "A. Author", "", "", none, "2001-01-01"⟩], true) ∧
     add_book ([] ++ [newRow ⟨"B0SAMPLE01", "Sample", "", "A. Author", "", "", none, "2001-01-01"⟩])
       ⟨"B0SAMPLE01", "Sample", "", "A. Author", "", "", none, "2001-01-01"⟩ =
      ([] ++ [newRow ⟨"B0SAMPLE01", "Sample", "", "A. Author", "", "", none, "2001-01-01"⟩], false)) ∧
    (update_library (update_library []
      [⟨"B0SAMPLE01", "Sample", "", "A. Author", "", "", none, "2001-01-01"⟩]).1
      [⟨"B0SAMPLE01", "Sample", "", "A. Author", "", "", none, "2001-01-01"⟩]).2 = 0 ∧
    (∃ t, (update_library []
      [⟨"B0SAMPLE01", "Sample", "", "A. Author", "", "", none, "2001-01-01"⟩]).1 = [] ++ t) :=
  ⟨add_book_noop_and_sync_idempotent.1 []
      ⟨"B0SAMPLE01", "Sample", "", "A. Author", "", "", none, "2001-01-01"⟩ (by decide),
   add_book_noop_and_sync_idempotent.2.1 []
      [⟨"B0SAMPLE01", "Sample", "", "A. Author", "", "", none, "2001-01-01"⟩],
   add_book_noop_and_sync_idempotent.2.2 []
      [⟨"B0SAMPLE01", "Sample", "", "A. Author", "", "", none, "2001-01-01"⟩]⟩

/-! ## C2: expected destination path versus actual placement -/

/-- The catalog row of the C2 scenario: authors J. R. R. Tolkien, title
The Hobbit, release date 1937-09-21, no series, no subtitle, no
narrators. -/
def tolkienBook : Book :=
  { asin := "B000TOLK01", title := "The Hobbit", subtitle := "",
    authors := "J. R. R. Tolkien", series_title := "", narrators := "",
    series_sequence := none, release_date := "1937-09-21",
    downloaded := 0, is_downloadable := 1, restriction_reason := none,
    last_download_attempt := none }

/-- C2 counterexample: with folder mode on and a successful conversion,
processing the downloaded raw file of the Tolkien entry places the final
asset at `/audiobooks/B000TOLK01/B000TOLK01_ep6..m4b` — the folder is
the bare asin and the file name is derived from the raw file stem — and
the claimed author/year-title directory with `The Hobbit.m4b` appears
nowhere in the placed assets. -/
theorem hobbit_placement_cex :
    (process_single_file ⟨true, fun _ _ => true⟩
      ⟨[tolkienBook], ["B000TOLK01_ep6.aax"], []⟩ "B000TOLK01_ep6.aax").1.assets
      = [("/audiobooks/B000TOLK01", "B000TOLK01_ep6..m4b")] ∧
    ("/audiobooks/J. R. R. Tolkien/1937 - The Hobbit \x7bUnknown Narrator\x7d",
      "The Hobbit.m4b") ∉
    (process_single_file ⟨true, fun _ _ => true⟩
      ⟨[tolkienBook], ["B000TOLK01_ep6.aax"], []⟩ "B000TOLK01_ep6.aax").1.assets := by
  constructor
  · decide
  · decide

/-- C2 (amended): the directory of the claim is what the audit tool's
`create_audiobook_path` derives for this metadata — for
authors J. R. R. Tolkien, title The Hobbit, release date 1937-09-21, no
series, no subtitle, folder mode on, it returns
`/audiobooks/J. R. R. Tolkien/1937 - The Hobbit` followed by
`Unknown Narrator` in curly braces — but the file processor does not use
it: `_create_audiobook_folder` places every converted asset in a
directory named by the bare asin under the audiobook root (and the file
name comes from the raw stem, as settled for C9), so the placed asset
never lands in the metadata-derived directory. -/
theorem expected_path_vs_actual_placement :
    (create_audiobook_path true (some "J. R. R. Tolkien") (some "The Hobbit")
        none none none none (some "1937-09-21")
      = "/audiobooks/J. R. R. Tolkien/1937 - The Hobbit \x7bUnknown Narrator\x7d/") ∧
    (∀ (db : List Book) (asin : String), (get_book_info db asin).isSome = true →
      create_audiobook_folder db asin = some (AUDIOBOOK_DIR ++ "/" ++ asin)) := by
  constructor
  · decide
  · intro db asin h
    unfold create_audiobook_folder
    cases hg : get_book_info db asin
    · rw [hg] at h
      cases h
    · simp

theorem expected_path_vs_actual_placement_witness :
    (create_audiobook_path true (some "J. R. R. Tolkien") (some "The Hobbit")
        none none none none (some "1937-09-21")
      = "/audiobooks/J. R. R. Tolkien/1937 - The Hobbit \x7bUnknown Narrator\x7d/") ∧
    create_audiobook_folder [tolkienBook] "B000TOLK01"
      = some (AUDIOBOOK_DIR ++ "/" ++ "B000TOLK01") :=
  ⟨expected_path_vs_actual_placement.1,
   expected_path_vs_actual_placement.2 [tolkienBook] "B000TOLK01" (by decide)⟩

/-! ## C5: batch call accounting of the classifier -/

theorem chunksAux_nil (fuel n : Nat) {α : Type} :
    chunksAux fuel n ([] : List α) = [] := by
  cases fuel <;> rfl

theorem chunksAux_fuel_irrel {α : Type} (n : Nat) (hn : 0 < n) :
    ∀ (f g : Nat) (l : List α), l.length ≤ f → l.length ≤ g →
      chunksAux f n l = chunksAux g n l := by
  intro f
  induction f with
  | zero =>
      intro g l hf hg
      have hl : l = [] := List.eq_nil_of_length_eq_zero (Nat.le_zero.mp hf)
      subst hl
      rw [chunksAux_nil, chunksAux_nil]
  | succ f ih =>
      intro g l hf hg
      cases l with
      | nil => rw [chunksAux_nil, chunksAux_nil]
      | cons x xs =>
          cases g with
          | zero => simp at hg
          | succ g =>
              simp only [chunksAux]
              congr 1
              apply ih g
              · simp only [List.length_drop, List.length_cons]
                simp only [List.length_cons] at hf
                omega
              · simp only [List.length_drop, List.length_cons]
                simp only [List.length_cons] at hg
                omega

theorem chunks_cons {α : Type} (n : Nat) (hn : 0 < n) (l : List α)
    (hl : l ≠ []) : chunks n l = l.take n :: chunks n (l.drop n) := by
  unfold chunks
  rw [if_neg (by omega), if_neg (by omega)]
  cases l with
  | nil => exact absurd rfl hl
  | cons x xs =>
      simp only [List.length_cons, chunksAux]
      congr 1
      apply chunksAux_fuel_irrel n hn
      · simp only [List.length_drop, List.length_cons]
        omega
      · exact le_refl _

theorem chunks_of_len_25 {α : Type} (l : List α) (h : l.length = 25) :
    chunks 20 l = [l.take 20, l.drop 20] := by
  have h1 : chunks 20 l = l.take 20 :: chunks 20 (l.drop 20) :=
    chunks_cons 20 (by omega) l (by intro hl; rw [hl] at h; simp at h)
  have h2 : (l.drop 20).length = 5 := by simp [List.length_drop, h]
  have h3 : chunks 20 (l.drop 20)
      = (l.drop 20).take 20 :: chunks 20 ((l.drop 20).drop 20) :=
    chunks_cons 20 (by omega) _ (by intro hl; rw [hl] at h2; simp at h2)
  have h4 : (l.drop 20).drop 20 = [] := by
    apply List.eq_nil_of_length_eq_zero
    simp [List.length_drop, h]
  have h5 : (l.drop 20).take 20 = l.drop 20 :=
    List.take_of_length_le (by omega)
  rw [h1, h3, h4, h5]
  rfl

theorem process_batch_fold_counts (oracle : ApiOracle) :
    ∀ (bs : List (List (String × String))) (acc : List Book × Nat × Nat),
      (bs.foldl (process_batch_t oracle) acc).2.1 = acc.2.1 + bs.length ∧
      (bs.foldl (process_batch_t oracle) acc).2.2 = acc.2.2 +
        ((bs.filter (fun b => !batchSucceeds oracle (b.map Prod.fst))).map
          List.length).sum := by
  intro bs
  induction bs with
  | nil => intro acc; simp
  | cons b rest ih =>
      intro acc
      simp only [List.foldl_cons, List.filter_cons]
      rcases hres : oracle.get_book_details (b.map Prod.fst) with _ | items
      · have hstep : process_batch_t oracle acc b =
            (process_individual_books oracle acc.1 b,
             acc.2.1 + 1, acc.2.2 + b.length) := by
          simp [process_batch_t, hres]
        have hsucc : batchSucceeds oracle (b.map Prod.fst) = false := by
          simp [batchSucceeds, hres]
        rw [hstep, hsucc]
        rcases ih (process_individual_books oracle acc.1 b,
          acc.2.1 + 1, acc.2.2 + b.length) with ⟨ih1, ih2⟩
        constructor
        · rw [ih1]; simp; omega
        · rw [ih2]; simp; omega
      · cases hemp : items.isEmpty
        · have hstep : process_batch_t oracle acc b =
              (process_batch_response acc.1 items, acc.2.1 + 1, acc.2.2) := by
            simp [process_batch_t, hres, hemp]
          have hsucc : batchSucceeds oracle (b.map Prod.fst) = true := by
            simp [batchSucceeds, hres, hemp]
          rw [hstep, hsucc]
          rcases ih (process_batch_response acc.1 items,
            acc.2.1 + 1, acc.2.2) with ⟨ih1, ih2⟩
          constructor
          · rw [ih1]; simp; omega
          · rw [ih2]; simp
        · have hstep : process_batch_t oracle acc b =
              (process_individual_books oracle acc.1 b,
               acc.2.1 + 1, acc.2.2 + b.length) := by
            simp [process_batch_t, hres, hemp]
          have hsucc : batchSucceeds oracle (b.map Prod.fst) = false := by
            simp [batchSucceeds, hres, hemp]
          rw [hstep, hsucc]
          rcases ih (process_individual_books oracle acc.1 b,
            acc.2.1 + 1, acc.2.2 + b.length) with ⟨ih1, ih2⟩
          constructor
          · rw [ih1]; simp; omega
          · rw [ih2]; simp; omega

/-- C5: the classifier issues exactly one bulk detail call per batch of
the pending list (chunked at `API_BATCH_SIZE`), and exactly one
individual detail call per entry of each batch whose bulk call failed
(error or empty result); in particular, with 25 pending entries and both
bulk calls succeeding it issues exactly 2 bulk calls and 0 individual
calls. -/
theorem restriction_batch_call_counts (oracle : ApiOracle) (db : List Book) :
    ((check_all_restrictions_t oracle db).2.1
       = (chunks API_BATCH_SIZE (get_unchecked_books db)).length ∧
     (check_all_restrictions_t oracle db).2.2
       = (((chunks API_BATCH_SIZE (get_unchecked_books db)).filter
            (fun b => !batchSucceeds oracle (b.map Prod.fst))).map
           List.length).sum) ∧
    ((get_unchecked_books db).length = 25 →
     (∀ asins, batchSucceeds oracle asins = true) →
     (check_all_restrictions_t oracle db).2.1 = 2 ∧
     (check_all_restrictions_t oracle db).2.2 = 0) := by
  have hbase := process_batch_fold_counts oracle
    (chunks API_BATCH_SIZE (get_unchecked_books db)) (db, 0, 0)
  refine ⟨⟨?_, ?_⟩, ?_⟩
  · rw [check_all_restrictions_t, hbase.1]
    simp
  · rw [check_all_restrictions_t, hbase.2]
    simp
  · intro h25 hsucc
    have hch : chunks API_BATCH_SIZE (get_unchecked_books db)
        = [(get_unchecked_books db).take 20, (get_unchecked_books db).drop 20] :=
      chunks_of_len_25 _ h25
    have hfilter : (chunks API_BATCH_SIZE (get_unchecked_books db)).filter
        (fun b => !batchSucceeds oracle (b.map Prod.fst)) = [] := by
      apply List.filter_eq_nil_iff.mpr
      intro b _
      simp [hsucc]
    constructor
    · rw [check_all_restrictions_t, hbase.1, hch]
      rfl
    · rw [check_all_restrictions_t, hbase.2, hfilter]
      rfl

/-- A table of 25 pending rows for the concrete batching scenario. -/
def db25 : List Book := List.replicate 25 sampleBook

/-- An oracle whose bulk calls always succeed with one unrestricted
item. -/
def oracleAllOk : ApiOracle :=
  ⟨fun _ => some [⟨"B0SAMPLE01", "Sample", false, none, false⟩],
   fun _ => none⟩

theorem restriction_batch_call_counts_witness :
    (check_all_restrictions_t oracleAllOk db25).2.1 = 2 ∧
    (check_all_restrictions_t oracleAllOk db25).2.2 = 0 :=
  (restriction_batch_call_counts oracleAllOk db25).2 (by decide)
    (fun _ => rfl)

/-! ## C1: what classification leaves behind -/

/-- A row is in one of the two representable classified shapes: eligible
(`is_downloadable = 1`, no reason) or restricted (`is_downloadable = 0`,
with a reason). The unknown state shares the eligible shape. -/
def rowGood (r : Book) : Prop :=
  (r.is_downloadable = 1 ∧ r.restriction_reason = none) ∨
  (r.is_downloadable = 0 ∧ r.restriction_reason ≠ none)

/-- The classification writes issued by the checker: eligible with no
reason, or restricted with a reason. -/
def goodWrite (isd : Bool) (reason : Option String) : Prop :=
  (isd = true ∧ reason = none) ∨ (isd = false ∧ reason ≠ none)

/-- Row-by-row relation between a table and a classified version of it:
same length, same asins in place, classified shapes preserved. -/
def Tracks (db db2 : List Book) : Prop :=
  db2.length = db.length ∧
  ∀ i (h1 : i < db.length) (h2 : i < db2.length),
    db2[i].asin = db[i].asin ∧ (rowGood db[i] → rowGood db2[i])

theorem tracks_refl (db : List Book) : Tracks db db :=
  ⟨rfl, fun _ _ _ => ⟨rfl, id⟩⟩

theorem tracks_trans {a b c : List Book} (h1 : Tracks a b)
    (h2 : Tracks b c) : Tracks a c := by
  have e1 := h1.1
  have e2 := h2.1
  refine ⟨e2.trans e1, fun i ha hc => ?_⟩
  have hb : i < b.length := by omega
  exact ⟨(h2.2 i hb hc).1.trans (h1.2 i ha hb).1,
    fun hg => (h2.2 i hb hc).2 ((h1.2 i ha hb).2 hg)⟩

theorem tracks_update (db : List Book) (a : String) (isd : Bool)
    (reason : Option String) (h : goodWrite isd reason) :
    Tracks db (update_downloadability db a isd reason) := by
  refine ⟨by simp [update_downloadability], fun i h1 h2 => ?_⟩
  simp only [update_downloadability, List.getElem_map]
  by_cases hc : db[i].asin = a
  · rw [if_pos hc]
    refine ⟨rfl, fun _ => ?_⟩
    rcases h with ⟨hi1, hr⟩ | ⟨hi0, hr⟩
    · subst hi1
      exact Or.inl ⟨rfl, hr⟩
    · subst hi0
      exact Or.inr ⟨rfl, hr⟩
  · rw [if_neg hc]
    exact ⟨rfl, id⟩

theorem analyze_goodWrite (item : ApiItem) :
    goodWrite (analyze_book_restrictions item).1
      (analyze_book_restrictions item).2 := by
  unfold analyze_book_restrictions goodWrite
  split_ifs <;> simp

theorem tracks_process_batch_response (items : List ApiItem) :
    ∀ db : List Book, Tracks db (process_batch_response db items) := by
  induction items with
  | nil => intro db; exact tracks_refl db
  | cons item rest ih =>
      intro db
      refine tracks_trans (tracks_update db item.asin _ _
        (analyze_goodWrite item)) ?_
      exact ih _

theorem tracks_process_individual_books (oracle : ApiOracle)
    (batch : List (String × String)) :
    ∀ db : List Book, Tracks db (process_individual_books oracle db batch) := by
  induction batch with
  | nil => intro db; exact tracks_refl db
  | cons p rest ih =>
      intro db
      rcases hres : oracle.get_single_book_details p.1 with _ | item
      · refine tracks_trans (tracks_update db p.1 false
          (some "No API data available (may be invalid ASIN)")
          (Or.inr ⟨rfl, by simp⟩)) ?_
        have : process_individual_books oracle db (p :: rest)
            = process_individual_books oracle
              (update_downloadability db p.1 false
                (some "No API data available (may be invalid ASIN)")) rest := by
          simp [process_individual_books, hres, update_book_status]
        rw [this]
        exact ih _
      · refine tracks_trans (tracks_update db p.1
          (analyze_book_restrictions item).1 (analyze_book_restrictions item).2
          (analyze_goodWrite item)) ?_
        have : process_individual_books oracle db (p :: rest)
            = process_individual_books oracle
              (update_downloadability db p.1 (analyze_book_restrictions item).1
                (analyze_book_restrictions item).2) rest := by
          simp [process_individual_books, hres, update_book_status]
        rw [this]
        exact ih _

theorem tracks_process_batch_t (oracle : ApiOracle)
    (acc : List Book × Nat × Nat) (batch : List (String × String)) :
    Tracks acc.1 (process_batch_t oracle acc batch).1 := by
  rcases hres : oracle.get_book_details (batch.map Prod.fst) with _ | items
  · simpa [process_batch_t, hres] using
      tracks_process_individual_books oracle batch acc.1
  · cases hemp : items.isEmpty
    · simpa [process_batch_t, hres, hemp] using
        tracks_process_batch_response items acc.1
    · simpa [process_batch_t, hres, hemp] using
        tracks_process_individual_books oracle batch acc.1

theorem tracks_check_all (oracle : ApiOracle)
    (bs : List (List (String × String))) :
    ∀ acc : List Book × Nat × Nat,
      Tracks acc.1 ((bs.foldl (process_batch_t oracle) acc).1) := by
  induction bs with
  | nil => intro acc; exact tracks_refl acc.1
  | cons b rest ih =>
      intro acc
      simp only [List.foldl_cons]
      exact tracks_trans (tracks_process_batch_t oracle acc b)
        (ih (process_batch_t oracle acc b))

theorem mem_insertByAsin (x r : Book) (l : List Book) :
    x ∈ insertByAsin r l ↔ x = r ∨ x ∈ l := by
  induction l with
  | nil => simp [insertByAsin]
  | cons y ys ih =>
      by_cases hc : lexLe r.asin.data y.asin.data
      · simp [insertByAsin, hc]
      · simp only [insertByAsin, if_neg hc, List.mem_cons, ih]
        tauto

theorem mem_sortByAsin (x : Book) (l : List Book) :
    x ∈ sortByAsin l ↔ x ∈ l := by
  induction l with
  | nil => simp [sortByAsin]
  | cons y ys ih =>
      simp only [sortByAsin, List.foldr_cons] at *
      rw [mem_insertByAsin, ih]
      simp

/-- C1 (amended): after `check_all_restrictions` completes, every entry
pending at the start still sits at its position with its asin, in one of
the two classified shapes — eligible (`is_downloadable = 1`, reason
NULL) or restricted (`is_downloadable = 0` with a reason) — and an entry
classified restricted is no longer returned by `get_unchecked_books`.
An entry classified eligible, however, is written back as
`is_downloadable = 1` with NULL reason, which is byte-for-byte the
pending/unknown state, so it remains in the pending set (see the
counterexample) and is re-checked on later cycles. -/
theorem classify_pending_terminal_states (oracle : ApiOracle)
    (db : List Book) (hU : (db.map Book.asin).Nodup) (i : Nat)
    (hi : i < db.length) (hpend : uncheckedPred db[i] = true) :
    ∃ h2 : i < (check_all_restrictions oracle db).length,
      (check_all_restrictions oracle db)[i].asin = db[i].asin ∧
      rowGood (check_all_restrictions oracle db)[i] ∧
      ((check_all_restrictions oracle db)[i].is_downloadable = 0 →
        ∀ p ∈ get_unchecked_books (check_all_restrictions oracle db),
          p.1 ≠ db[i].asin) := by
  have htr : Tracks db (check_all_restrictions oracle db) := by
    unfold check_all_restrictions check_all_restrictions_t
    exact tracks_check_all oracle _ (db, 0, 0)
  rcases htr with ⟨hlen, hpt⟩
  have h2 : i < (check_all_restrictions oracle db).length := by omega
  have hgood0 : rowGood db[i] := by
    have h3 : db[i].is_downloadable = 1 ∧ db[i].restriction_reason = none := by
      unfold uncheckedPred at hpend
      simp only [Bool.and_eq_true, decide_eq_true_eq] at hpend
      exact ⟨hpend.1.1, hpend.1.2⟩
    exact Or.inl h3
  refine ⟨h2, (hpt i hi h2).1, (hpt i hi h2).2 hgood0, ?_⟩
  intro h0 p hp hcontra
  rcases List.mem_map.mp hp with ⟨r, hrmem, hrp⟩
  have hrfil : r ∈ (check_all_restrictions oracle db).filter uncheckedPred :=
    (mem_sortByAsin r _).mp hrmem
  rcases List.mem_filter.mp hrfil with ⟨hrin, hrpred⟩
  rcases List.mem_iff_getElem.mp hrin with ⟨j, hj, hjr⟩
  have hj2 : j < db.length := by omega
  have hasin : db[j].asin = db[i].asin := by
    have hji := (hpt j hj2 hj).1
    have : r.asin = p.1 := by rw [← hrp]
    rw [← hji, hjr, this, hcontra]
  have hij : j = i := by
    have hjm : j < (db.map Book.asin).length := by simpa using hj2
    have him : i < (db.map Book.asin).length := by simpa using hi
    have hmapj : (db.map Book.asin)[j] = db[j].asin := List.getElem_map _
    have hmapi : (db.map Book.asin)[i] = db[i].asin := List.getElem_map _
    have heq : (db.map Book.asin)[j] = (db.map Book.asin)[i] := by
      rw [hmapj, hmapi, hasin]
    exact (List.Nodup.getElem_inj_iff hU).mp heq
  subst hij
  have : (check_all_restrictions oracle db)[j] = r := hjr
  rw [this] at h0
  unfold uncheckedPred at hrpred
  simp only [Bool.and_eq_true, decide_eq_true_eq] at hrpred
  rw [h0] at hrpred
  exact absurd hrpred.1.1 (by decide)

theorem classify_pending_terminal_states_witness :
    ∃ h2 : 0 < (check_all_restrictions oracleAllOk [sampleBook]).length,
      (check_all_restrictions oracleAllOk [sampleBook])[0].asin
        = [sampleBook][0].asin ∧
      rowGood (check_all_restrictions oracleAllOk [sampleBook])[0] ∧
      ((check_all_restrictions oracleAllOk [sampleBook])[0].is_downloadable = 0 →
        ∀ p ∈ get_unchecked_books (check_all_restrictions oracleAllOk [sampleBook]),
          p.1 ≠ [sampleBook][0].asin) :=
  classify_pending_terminal_states oracleAllOk [sampleBook] (by decide) 0
    (by decide) (by decide)

/-- C1 counterexample: a pending entry classified eligible is written
back in the very shape `get_unchecked_books` selects, so after an
uninterrupted `check_all_restrictions` run it is still in the pending
set — the claim that no entry pending at the start remains in the
pending set on a subsequent query is false. -/
theorem classify_pending_eligible_stays_pending_cex :
    ("B0SAMPLE01", "Sample") ∈ get_unchecked_books [sampleBook] ∧
    ("B0SAMPLE01", "Sample") ∈
      get_unchecked_books (check_all_restrictions oracleAllOk [sampleBook]) := by
  constructor
  · decide
  · decide

/-! ## C3 and C8: audit scan and repair lemmas -/

theorem corrupt_fold_char (a : String) :
    ∀ (found : List FsFile) (m : List String)
      (c : List (String × FsFile)) (k : Nat),
      found.foldl (fun (acc : ScanResult) (f : FsFile) =>
        if isCorrupt f then
          { acc with corrupted := acc.corrupted ++ [(a, f)],
                     issues := acc.issues + 1 }
        else acc) (⟨m, c, k⟩ : ScanResult)
      = ⟨m, c ++ (found.filter isCorrupt).map (fun f => (a, f)),
          k + (found.filter isCorrupt).length⟩ := by
  intro found
  induction found with
  | nil => intro m c k; simp
  | cons f rest ih =>
      intro m c k
      simp only [List.foldl_cons, List.filter_cons]
      cases hc : isCorrupt f
      · simp only [Bool.false_eq_true, if_false]
        rw [ih]
      · simp only [if_pos]
        rw [ih]
        simp [List.append_assoc]
        omega

theorem scanStep_char (fs : List FsFile) (acc : ScanResult) (r : Book) :
    scanStep fs acc r =
      if (foundFiles fs r.asin).isEmpty then
        ⟨acc.missing ++ [r.asin], acc.corrupted, acc.issues + 1⟩
      else
        ⟨acc.missing,
         acc.corrupted ++
           ((foundFiles fs r.asin).filter isCorrupt).map (fun f => (r.asin, f)),
         acc.issues + ((foundFiles fs r.asin).filter isCorrupt).length⟩ := by
  obtain ⟨m, c, k⟩ := acc
  unfold scanStep
  cases he : (foundFiles fs r.asin).isEmpty
  · simp only [he, Bool.false_eq_true, if_false]
    rw [corrupt_fold_char]
  · simp [he]

theorem scan_fold_issues (fs : List FsFile) :
    ∀ (bs : List Book) (acc : ScanResult),
      (bs.foldl (scanStep fs) acc).issues = acc.issues +
        (bs.map (fun r => if (foundFiles fs r.asin).isEmpty then 1
          else ((foundFiles fs r.asin).filter isCorrupt).length)).sum := by
  intro bs
  induction bs with
  | nil => intro acc; simp
  | cons r rest ih =>
      intro acc
      simp only [List.foldl_cons, List.map_cons, List.sum_cons]
      rw [ih, scanStep_char]
      cases he : (foundFiles fs r.asin).isEmpty <;> simp [he] <;> omega

theorem scan_fold_missing_mono (fs : List FsFile) :
    ∀ (bs : List Book) (acc : ScanResult),
      ∃ t, (bs.foldl (scanStep fs) acc).missing = acc.missing ++ t := by
  intro bs
  induction bs with
  | nil => intro acc; exact ⟨[], by simp⟩
  | cons r rest ih =>
      intro acc
      simp only [List.foldl_cons]
      rw [scanStep_char]
      cases he : (foundFiles fs r.asin).isEmpty
      · simp only [Bool.false_eq_true, if_false]
        exact ih _
      · simp only [if_pos]
        rcases ih ⟨acc.missing ++ [r.asin], acc.corrupted, acc.issues + 1⟩
          with ⟨t, ht⟩
        exact ⟨[r.asin] ++ t, by simpa [List.append_assoc] using ht⟩

theorem scan_fold_corrupted_mono (fs : List FsFile) :
    ∀ (bs : List Book) (acc : ScanResult),
      ∃ t, (bs.foldl (scanStep fs) acc).corrupted = acc.corrupted ++ t := by
  intro bs
  induction bs with
  | nil => intro acc; exact ⟨[], by simp⟩
  | cons r rest ih =>
      intro acc
      simp only [List.foldl_cons]
      rw [scanStep_char]
      cases he : (foundFiles fs r.asin).isEmpty
      · simp only [Bool.false_eq_true, if_false]
        rcases ih ⟨acc.missing,
          acc.corrupted ++
            ((foundFiles fs r.asin).filter isCorrupt).map (fun f => (r.asin, f)),
          acc.issues + ((foundFiles fs r.asin).filter isCorrupt).length⟩
          with ⟨t, ht⟩
        refine ⟨((foundFiles fs r.asin).filter isCorrupt).map
          (fun f => (r.asin, f)) ++ t, ?_⟩
        simpa [List.append_assoc] using ht
      · simp only [if_pos]
        exact ih _

theorem scan_fold_missing_mem (fs : List FsFile) :
    ∀ (bs : List Book) (acc : ScanResult) (r : Book), r ∈ bs →
      (foundFiles fs r.asin).isEmpty = true →
      r.asin ∈ (bs.foldl (scanStep fs) acc).missing := by
  intro bs
  induction bs with
  | nil => intro acc r h; cases h
  | cons b rest ih =>
      intro acc r hmem hemp
      simp only [List.foldl_cons]
      rcases List.mem_cons.mp hmem with h | h
      · subst h
        rw [scanStep_char, if_pos hemp]
        rcases scan_fold_missing_mono fs rest
          ⟨acc.missing ++ [r.asin], acc.corrupted, acc.issues + 1⟩
          with ⟨t, ht⟩
        rw [ht]
        simp
      · exact ih _ r h hemp

theorem scan_fold_corrupted_mem (fs : List FsFile) :
    ∀ (bs : List Book) (acc : ScanResult) (r : Book) (f : FsFile),
      r ∈ bs → f ∈ foundFiles fs r.asin → isCorrupt f = true →
      (r.asin, f) ∈ (bs.foldl (scanStep fs) acc).corrupted := by
  intro bs
  induction bs with
  | nil => intro acc r f h; cases h
  | cons b rest ih =>
      intro acc r f hmem hf hc
      simp only [List.foldl_cons]
      rcases List.mem_cons.mp hmem with h | h
      · subst h
        have hemp : (foundFiles fs r.asin).isEmpty = false := by
          cases hq : foundFiles fs r.asin
          · rw [hq] at hf; cases hf
          · simp [hq]
        rw [scanStep_char, hemp]
        simp only [Bool.false_eq_true, if_false]
        rcases scan_fold_corrupted_mono fs rest _ with ⟨t, ht⟩
        rw [ht]
        have : (r.asin, f) ∈
            ((foundFiles fs r.asin).filter isCorrupt).map (fun f => (r.asin, f)) :=
          List.mem_map.mpr ⟨f, List.mem_filter.mpr ⟨hf, hc⟩, rfl⟩
        simp only [List.append_assoc, List.mem_append]
        right
        left
        exact this
      · exact ih _ r f h hf hc

theorem scan_fold_corrupted_nil (fs : List FsFile) :
    ∀ (bs : List Book) (acc : ScanResult),
      (∀ r ∈ bs, (foundFiles fs r.asin).filter isCorrupt = []) →
      (bs.foldl (scanStep fs) acc).corrupted = acc.corrupted := by
  intro bs
  induction bs with
  | nil => intro acc _; rfl
  | cons b rest ih =>
      intro acc h
      simp only [List.foldl_cons]
      rw [scanStep_char]
      cases he : (foundFiles fs b.asin).isEmpty
      · simp only [Bool.false_eq_true, if_false]
        rw [h b (by simp)]
        rw [ih _ (fun r hr => h r (by simp [hr]))]
        simp
      · simp only [if_pos]
        exact ih _ (fun r hr => h r (by simp [hr]))

theorem resetDownloaded_sets (bs : List Book) (a : String) :
    ∀ r ∈ resetDownloaded bs a, r.asin = a → r.downloaded = 0 := by
  intro r hr ha
  rcases List.mem_map.mp hr with ⟨x, _, hx⟩
  by_cases hc : x.asin = a
  · rw [if_pos hc] at hx
    rw [← hx]
  · rw [if_neg hc] at hx
    rw [← hx] at ha
    exact absurd ha hc

theorem resetDownloaded_preserves (bs : List Book) (a a2 : String)
    (h : ∀ r ∈ bs, r.asin = a → r.downloaded = 0) :
    ∀ r ∈ resetDownloaded bs a2, r.asin = a → r.downloaded = 0 := by
  intro r hr ha
  rcases List.mem_map.mp hr with ⟨x, hxm, hx⟩
  by_cases hc : x.asin = a2
  · rw [if_pos hc] at hx
    rw [← hx]
  · rw [if_neg hc] at hx
    rw [← hx] at ha ⊢
    exact h x hxm ha

theorem foldl_reset_preserves (l : List String) :
    ∀ (bs : List Book) (a : String),
      (∀ r ∈ bs, r.asin = a → r.downloaded = 0) →
      ∀ r ∈ l.foldl resetDownloaded bs, r.asin = a → r.downloaded = 0 := by
  induction l with
  | nil => intro bs a h; exact h
  | cons x rest ih =>
      intro bs a h
      simp only [List.foldl_cons]
      exact ih _ a (resetDownloaded_preserves bs a x h)

theorem foldl_reset_sets (l : List String) :
    ∀ (bs : List Book) (a : String), a ∈ l →
      ∀ r ∈ l.foldl resetDownloaded bs, r.asin = a → r.downloaded = 0 := by
  induction l with
  | nil => intro bs a h; cases h
  | cons x rest ih =>
      intro bs a hmem
      simp only [List.foldl_cons]
      rcases List.mem_cons.mp hmem with h | h
      · subst h
        exact foldl_reset_preserves rest _ a (resetDownloaded_sets bs a)
      · exact ih _ a h

theorem mem_foldl_erase {β : Type} (g : β → FsFile) :
    ∀ (l : List β) (s : List FsFile) (x : FsFile),
      x ∈ l.foldl (fun s p => s.erase (g p)) s → x ∈ s := by
  intro l
  induction l with
  | nil => intro s x h; exact h
  | cons p rest ih =>
      intro s x h
      simp only [List.foldl_cons] at h
      exact List.mem_of_mem_erase (ih _ x h)

theorem notMem_foldl_erase {β : Type} (g : β → FsFile) :
    ∀ (l : List β) (s : List FsFile) (x : FsFile),
      (∃ p ∈ l, g p = x) → List.count x s ≤ 1 →
      x ∉ l.foldl (fun s p => s.erase (g p)) s := by
  intro l
  induction l with
  | nil =>
      intro s x hex _
      rcases hex with ⟨p, hp, _⟩
      cases hp
  | cons p rest ih =>
      intro s x hex hcount
      simp only [List.foldl_cons]
      by_cases hpx : g p = x
      · rw [hpx]
        have h0 : List.count x (s.erase x) = 0 := by
          rw [List.count_erase_self]
          omega
        have hnot : x ∉ s.erase x := by
          rw [← List.count_eq_zero]
          exact h0
        intro hmem
        exact hnot (mem_foldl_erase g rest _ x hmem)
      · rcases hex with ⟨q, hq, hqx⟩
        rcases List.mem_cons.mp hq with h | h
        · subst h
          exact absurd hqx hpx
        · apply ih _ x ⟨q, h, hqx⟩
          rw [List.count_erase_of_ne (fun he => hpx he.symm)]
          exact hcount

/-- C3: over an entry marked downloaded, `verify_and_fix` repairs drift:
when exactly one matching final asset exists and it has 0 bytes, that
file is deleted from the tree and the entry's downloaded flag becomes 0;
when no matching file exists at all, the flag becomes 0 and — absent any
corrupt file for any downloaded entry — no file is deleted. -/
theorem audit_and_repair_missing_and_corrupted (books : List Book)
    (fs : List FsFile) (b : Book) (hb : b ∈ books) (hdl : b.downloaded = 1) :
    (∀ f : FsFile, fs.Nodup → foundFiles fs b.asin = [f] → f.size = some 0 →
      f ∉ (verify_and_fix books fs).2.1 ∧
      ∀ r ∈ (verify_and_fix books fs).1, r.asin = b.asin → r.downloaded = 0) ∧
    (foundFiles fs b.asin = [] →
      (∀ r ∈ (verify_and_fix books fs).1, r.asin = b.asin → r.downloaded = 0) ∧
      ((∀ b2 ∈ books, b2.downloaded = 1 →
          (foundFiles fs b2.asin).filter isCorrupt = []) →
        (verify_and_fix books fs).2.1 = fs)) := by
  have hbf : b ∈ books.filter (fun r => r.downloaded = 1) :=
    List.mem_filter.mpr ⟨hb, by simp [hdl]⟩
  constructor
  · intro f hnd hfound hsize
    have hfin : f ∈ foundFiles fs b.asin := by rw [hfound]; simp
    have hcor : isCorrupt f = true := by simp [isCorrupt, hsize]
    have hcmem : (b.asin, f) ∈ (scanBooks fs books).corrupted := by
      unfold scanBooks
      exact scan_fold_corrupted_mem fs _ _ b f hbf hfin hcor
    have hpos : 0 < (scanBooks fs books).issues := by
      unfold scanBooks
      rw [scan_fold_issues]
      have hterm : (if (foundFiles fs b.asin).isEmpty then 1
          else ((foundFiles fs b.asin).filter isCorrupt).length)
          ∈ (books.filter (fun r => r.downloaded = 1)).map
            (fun r => if (foundFiles fs r.asin).isEmpty then 1
              else ((foundFiles fs r.asin).filter isCorrupt).length) :=
        List.mem_map.mpr ⟨b, hbf, rfl⟩
      have hterm1 : (if (foundFiles fs b.asin).isEmpty then 1
          else ((foundFiles fs b.asin).filter isCorrupt).length) = 1 := by
        rw [hfound]
        simp [hcor]
      rw [hterm1] at hterm
      have := List.single_le_sum (fun x _ => Nat.zero_le x) _ hterm
      omega
    have happ : applyFixes books fs (scanBooks fs books)
        = ((scanBooks fs books).corrupted.foldl
             (fun bs p => resetDownloaded bs p.1)
             ((scanBooks fs books).missing.foldl resetDownloaded books),
           (scanBooks fs books).corrupted.foldl
             (fun fs p => fs.erase p.2) fs) := by
      unfold applyFixes
      rw [if_pos hpos]
    constructor
    · have hv : (verify_and_fix books fs).2.1
          = (applyFixes books fs (scanBooks fs books)).2 := rfl
      rw [hv, happ]
      exact notMem_foldl_erase Prod.snd _ fs f ⟨(b.asin, f), hcmem, rfl⟩
        (List.nodup_iff_count_le_one.mp hnd f)
    · intro r hr ha
      have hv : (verify_and_fix books fs).1
          = (applyFixes books fs (scanBooks fs books)).1 := rfl
      rw [hv, happ] at hr
      have hconv : (scanBooks fs books).corrupted.foldl
          (fun bs p => resetDownloaded bs p.1)
          ((scanBooks fs books).missing.foldl resetDownloaded books)
          = ((scanBooks fs books).corrupted.map Prod.fst).foldl resetDownloaded
            ((scanBooks fs books).missing.foldl resetDownloaded books) :=
        (List.foldl_map _ _ _ _).symm
      rw [hconv] at hr
      exact foldl_reset_sets _ _ _
        (List.mem_map.mpr ⟨(b.asin, f), hcmem, rfl⟩) r hr ha
  · intro hfound
    have hemp : (foundFiles fs b.asin).isEmpty = true := by rw [hfound]; rfl
    have hmmem : b.asin ∈ (scanBooks fs books).missing := by
      unfold scanBooks
      exact scan_fold_missing_mem fs _ _ b hbf hemp
    have hpos : 0 < (scanBooks fs books).issues := by
      unfold scanBooks
      rw [scan_fold_issues]
      have hterm : (if (foundFiles fs b.asin).isEmpty then 1
          else ((foundFiles fs b.asin).filter isCorrupt).length)
          ∈ (books.filter (fun r => r.downloaded = 1)).map
            (fun r => if (foundFiles fs r.asin).isEmpty then 1
              else ((foundFiles fs r.asin).filter isCorrupt).length) :=
        List.mem_map.mpr ⟨b, hbf, rfl⟩
      have hterm1 : (if (foundFiles fs b.asin).isEmpty then 1
          else ((foundFiles fs b.asin).filter isCorrupt).length) = 1 := by
        rw [hemp]
        simp
      rw [hterm1] at hterm
      have := List.single_le_sum (fun x _ => Nat.zero_le x) _ hterm
      omega
    have happ : applyFixes books fs (scanBooks fs books)
        = ((scanBooks fs books).corrupted.foldl
             (fun bs p => resetDownloaded bs p.1)
             ((scanBooks fs books).missing.foldl resetDownloaded books),
           (scanBooks fs books).corrupted.foldl
             (fun fs p => fs.erase p.2) fs) := by
      unfold applyFixes
      rw [if_pos hpos]
    constructor
    · intro r hr ha
      have hv : (verify_and_fix books fs).1
          = (applyFixes books fs (scanBooks fs books)).1 := rfl
      rw [hv, happ] at hr
      have hprop1 : ∀ r2 ∈ (scanBooks fs books).missing.foldl
          resetDownloaded books, r2.asin = b.asin → r2.downloaded = 0 :=
        foldl_reset_sets _ books b.asin hmmem
      have hconv : (scanBooks fs books).corrupted.foldl
          (fun bs p => resetDownloaded bs p.1)
          ((scanBooks fs books).missing.foldl resetDownloaded books)
          = ((scanBooks fs books).corrupted.map Prod.fst).foldl resetDownloaded
            ((scanBooks fs books).missing.foldl resetDownloaded books) :=
        (List.foldl_map _ _ _ _).symm
      rw [hconv] at hr
      exact foldl_reset_preserves _ _ _ hprop1 r hr ha
    · intro hnc
      have hcnil : (scanBooks fs books).corrupted = [] := by
        unfold scanBooks
        apply scan_fold_corrupted_nil
        intro r hrf
        rcases List.mem_filter.mp hrf with ⟨hrb, hrdl⟩
        exact hnc r hrb (by simpa using hrdl)
      have hv : (verify_and_fix books fs).2.1
          = (applyFixes books fs (scanBooks fs books)).2 := rfl
      rw [hv, happ, hcnil]
      rfl

/-- A downloaded variant of the sample row. -/
def bookD : Book := { sampleBook with downloaded := 1 }

/-- A 0-byte final asset matching the sample row's asin. -/
def zeroFile : FsFile := ⟨"/audiobooks", "B0SAMPLE01_x.m4b", some 0⟩

theorem audit_and_repair_missing_and_corrupted_witness :
    (zeroFile ∉ (verify_and_fix [bookD] [zeroFile]).2.1 ∧
     ∀ r ∈ (verify_and_fix [bookD] [zeroFile]).1,
       r.asin = bookD.asin → r.downloaded = 0) ∧
    ((∀ r ∈ (verify_and_fix [bookD] ([] : List FsFile)).1,
       r.asin = bookD.asin → r.downloaded = 0) ∧
     ((∀ b2 ∈ [bookD], b2.downloaded = 1 →
         (foundFiles ([] : List FsFile) b2.asin).filter isCorrupt = []) →
       (verify_and_fix [bookD] ([] : List FsFile)).2.1 = [])) :=
  ⟨(audit_and_repair_missing_and_corrupted [bookD] [zeroFile] bookD
      (by simp) rfl).1 zeroFile (by simp) (by decide) rfl,
   (audit_and_repair_missing_and_corrupted [bookD] ([] : List FsFile) bookD
      (by simp) rfl).2 rfl⟩

/-! ## C8: exit codes of the audit tools -/

/-- C8 counterexample: with a reachable database, quick mode, and one
downloaded entry whose asset is missing, the flag-bearing standalone
audit tool (`verify_integrity.main`) finds 1 issue yet the process exits
0 — the exit code does not equal the number of issues found. -/
theorem verify_integrity_exit_ignores_issues_cex :
    verify_integrity_main ⟨false, true, false, false, false⟩ true true
      (fun _ => true) [bookD] [] = (0, 1) ∧
    (0 : Int) ≠ ((1 : Nat) : Int) := by
  constructor
  · decide
  · decide

/-- C8 (amended): the exit-code-equals-issues contract belongs to the
automated checker `auto_integrity_check.py` — run standalone it exits
with exactly the number of issues found (hence 0 when the tree is
clean) and with -1 on a fatal error — whereas the flag-bearing audit
tool `verify_integrity.py` always exits 0 on normal completion whatever
the issue count, and exits 1 (positive) on a fatal database error. -/
theorem audit_tool_exit_codes :
    (∀ (books : List Book) (fs : List FsFile),
      auto_integrity_exit false books fs = (specIssueCount books fs : Int)) ∧
    (∀ (books : List Book) (fs : List FsFile),
      auto_integrity_exit true books fs = -1) ∧
    (∀ (args : AuditArgs) (useFolders : Bool) (probeValid : FsFile → Bool)
      (books : List Book) (fs : List FsFile),
      (verify_integrity_main args useFolders true probeValid books fs).1 = 0) ∧
    (∀ (args : AuditArgs) (useFolders : Bool) (probeValid : FsFile → Bool)
      (books : List Book) (fs : List FsFile),
      (verify_integrity_main args useFolders false probeValid books fs).1 = 1) := by
  refine ⟨?_, ?_, ?_, ?_⟩
  · intro books fs
    have h1 : (verify_and_fix books fs).2.2 = specIssueCount books fs := by
      show (scanBooks fs books).issues = specIssueCount books fs
      unfold scanBooks specIssueCount
      rw [scan_fold_issues]
      simp
    unfold auto_integrity_exit
    rw [if_neg (by simp)]
    rw [h1]
  · intro books fs
    rfl
  · intro args useFolders probeValid books fs
    cases ho : args.orphansOnly <;> simp [verify_integrity_main, ho]
  · intro args useFolders probeValid books fs
    simp [verify_integrity_main]

theorem audit_tool_exit_codes_witness :
    (auto_integrity_exit false [bookD] [] = (specIssueCount [bookD] [] : Int)) ∧
    (auto_integrity_exit true [bookD] [] = -1) ∧
    ((verify_integrity_main ⟨false, false, false, false, false⟩ true true
      (fun _ => true) [bookD] []).1 = 0) ∧
    ((verify_integrity_main ⟨false, false, false, false, false⟩ true false
      (fun _ => true) [bookD] []).1 = 1) :=
  ⟨audit_tool_exit_codes.1 [bookD] [],
   audit_tool_exit_codes.2.1 [bookD] [],
   audit_tool_exit_codes.2.2.1 ⟨false, false, false, false, false⟩ true
     (fun _ => true) [bookD] [],
   audit_tool_exit_codes.2.2.2 ⟨false, false, false, false, false⟩ true
     (fun _ => true) [bookD] []⟩

end AudibleDL
